import Mathlib

/-!
Verification of the citation-tracked content preparation and persona-assembly
pipeline of the Reddit persona generator (`utils/persona_builder.py`).

Shallow embedding conventions:
* Python dicts for raw items become structures with `Option` fields; a `none`
  field models an absent dictionary key, so `dict.get(k, d)` becomes `.getD d`.
  `score` (defaulted to 0 at every read site) is modelled as a plain `Int` and
  `created_utc` as a plain `Nat` with 0 meaning "unknown", matching the
  defaults used by the source.
* Python string slicing `s[:n]` becomes `strTake s n` (first `n` code points).
* `collections.Counter` built by per-item increments is modelled by `tally`,
  which lists (key, total count) pairs in first-occurrence order — exactly the
  insertion-order `items()` view of the Counter; `Counter.most_common()` is a
  stable descending sort on counts, modelled by the stable insertion sort
  `sortDesc`.
* `datetime.fromtimestamp` (epoch to local calendar) is modelled with a fixed
  UTC offset `off` in seconds: hour = ((ts + off) / 3600) % 24 and Python
  weekday (Monday = 0) = ((ts + off) / 86400 + 3) % 7, epoch day being a
  Thursday.
* The Gemini call in `_make_api_call` becomes a function
  `call : Nat → Except String String` giving each attempt's outcome; the
  retry wrapper returns the result together with the number of invocations
  and the list of back-off sleeps, in seconds, in order.
* `build_persona` takes the four analysis outcomes as parameters
  (`Option String`: `none` models an exception turned into `None`, `some ""`
  models an empty response) and additionally returns how many of the four
  analysis calls were issued.
-/

/-- Python code-point slice `s[:n]`. -/
def strTake (s : String) (n : Nat) : String := String.mk (s.data.take n)

/-- A scraped post dictionary (`user_data['posts'][i]`). -/
structure Post where
  id : Option String
  title : Option String
  selftext : Option String
  subreddit : Option String
  score : Int
  created_utc : Nat
  permalink : Option String
deriving DecidableEq

/-- A scraped comment dictionary (`user_data['comments'][i]`). -/
structure Comment where
  id : Option String
  body : Option String
  subreddit : Option String
  score : Int
  created_utc : Nat
  submission_title : Option String
  permalink : Option String
deriving DecidableEq

/-- Citation-map value: the metadata stored per token in
`_prepare_content_for_analysis`. -/
inductive CitationEntry where
  | postE (id : Option String) (title : String) (subreddit : String)
      (score : Int) (timestamp : Nat) (permalink : String)
  | commentE (id : Option String) (subreddit : String) (score : Int)
      (timestamp : Nat) (submissionTitle : String) (permalink : String)
deriving DecidableEq

/-- `f"POST_{i+1}"` for 0-based enumeration index `i`. -/
def postToken (i : Nat) : String := "POST_" ++ toString (i + 1)

/-- `f"COMMENT_{i+1}"` for 0-based enumeration index `i`. -/
def commentToken (i : Nat) : String := "COMMENT_" ++ toString (i + 1)

/-- The citation-map entry recorded for one post. -/
def postEntry (p : Post) : CitationEntry :=
  .postE p.id (p.title.getD "") (p.subreddit.getD "") p.score p.created_utc
    (p.permalink.getD "")

/-- The citation-map entry recorded for one comment. -/
def commentEntry (c : Comment) : CitationEntry :=
  .commentE c.id (c.subreddit.getD "") c.score c.created_utc
    (c.submission_title.getD "") (c.permalink.getD "")

/-- The lines appended to `content_parts` for the post with enumeration
index `i`: header, title line, optional content line (only when `selftext`
is truthy), score line. -/
def postFragment (i : Nat) (p : Post) : List String :=
  ("\n[" ++ postToken i ++ "] r/" ++ p.subreddit.getD "unknown") ::
  ("Title: " ++ p.title.getD "No title") ::
  (if p.selftext.getD "" = "" then
    ["Score: " ++ toString p.score]
  else
    ["Content: " ++ strTake (p.selftext.getD "") 500 ++ "...",
     "Score: " ++ toString p.score])

/-- The lines appended to `content_parts` for the comment with enumeration
index `i`: header, parent-title line, body line, score line. -/
def commentFragment (i : Nat) (c : Comment) : List String :=
  [("\n[" ++ commentToken i ++ "] r/" ++ c.subreddit.getD "unknown"),
   ("In response to: " ++ c.submission_title.getD "Unknown post"),
   ("Comment: " ++ strTake (c.body.getD "") 300 ++ "..."),
   ("Score: " ++ toString c.score)]

/-- Fragments of all posts, enumerated from index `i`. -/
def postsParts : Nat → List Post → List String
  | _, [] => []
  | i, p :: ps => postFragment i p ++ postsParts (i + 1) ps

/-- Fragments of all comments, enumerated from index `i`. -/
def commentsParts : Nat → List Comment → List String
  | _, [] => []
  | i, c :: cs => commentFragment i c ++ commentsParts (i + 1) cs

/-- Citation-map entries of all posts, enumerated from index `i`. -/
def postCitations : Nat → List Post → List (String × CitationEntry)
  | _, [] => []
  | i, p :: ps => (postToken i, postEntry p) :: postCitations (i + 1) ps

/-- Citation-map entries of all comments, enumerated from index `i`. -/
def commentCitations : Nat → List Comment → List (String × CitationEntry)
  | _, [] => []
  | i, c :: cs => (commentToken i, commentEntry c) :: commentCitations (i + 1) cs

/-- `PersonaBuilder._prepare_content_for_analysis`: builds the corpus text
(`'\n'.join(content_parts)`) and the citation map (an insertion-ordered
dictionary, modelled as an association list). Posts are capped at the first
50, comments at the first 100. -/
def prepareContent (posts : List Post) (comments : List Comment) :
    String × List (String × CitationEntry) :=
  let parts :=
    (if posts.isEmpty then []
     else "=== REDDIT POSTS ===" :: postsParts 0 (posts.take 50)) ++
    (if comments.isEmpty then []
     else "\n\n=== REDDIT COMMENTS ===" :: commentsParts 0 (comments.take 100))
  let cmap :=
    postCitations 0 (posts.take 50) ++ commentCitations 0 (comments.take 100)
  (String.intercalate "\n" parts, cmap)

/-- The retry loop body of `PersonaBuilder._make_api_call`, with `fuel` the
number of attempts still allowed (`max_retries - attempt`).  Returns
(result, number of invocations performed, back-off sleeps in seconds, in
order).  A sleep of `2 ** attempt` happens only when the failed attempt was
not the last one. -/
def retryGo (call : Nat → Except String String) :
    Nat → Nat → Option String × Nat × List Nat
  | _, 0 => (none, 0, [])
  | attempt, fuel + 1 =>
    match call attempt with
    | Except.ok s => (some s, 1, [])
    | Except.error _ =>
      match retryGo call (attempt + 1) fuel with
      | (r, n, sleeps) =>
        if fuel = 0 then (r, n + 1, sleeps)
        else (r, n + 1, 2 ^ attempt :: sleeps)

/-- `PersonaBuilder._make_api_call` with `max_retries = maxRetries`: runs the
attempt loop from attempt 0.  Every exception of the inner call is caught
(the `Except.error` branch), so the wrapper's type `Option String` carries no
error channel — failure is `none`, never a propagated exception. -/
def makeApiCall (maxRetries : Nat) (call : Nat → Except String String) :
    Option String × Nat × List Nat :=
  retryGo call 0 maxRetries

/-- The insertion-ordered `items()` view of a `collections.Counter` built by
one `+= 1` per list element: `tallyGo seen l` lists, for every value of `l`
not in `seen`, the pair (value, number of occurrences), keys ordered by first
occurrence. -/
def tallyGo {α : Type} [DecidableEq α] : List α → List α → List (α × Nat)
  | _, [] => []
  | seen, x :: rest =>
    if x ∈ seen then tallyGo seen rest
    else (x, 1 + rest.count x) :: tallyGo (x :: seen) rest

/-- `collections.Counter(l)` as an insertion-ordered association list. -/
def tally {α : Type} [DecidableEq α] (l : List α) : List (α × Nat) :=
  tallyGo [] l

theorem mem_tallyGo {α : Type} [DecidableEq α] :
    ∀ (l seen : List α) (p : α × Nat), p ∈ tallyGo seen l →
      p.1 ∈ l ∧ p.1 ∉ seen ∧ p.2 = l.count p.1
  | [], _, _, h => by simp [tallyGo] at h
  | x :: rest, seen, p, h => by
    by_cases hx : x ∈ seen
    · rw [tallyGo, if_pos hx] at h
      obtain ⟨h1, h2, h3⟩ := mem_tallyGo rest seen p h
      have hne : p.1 ≠ x := fun he => h2 (he ▸ hx)
      exact ⟨List.mem_cons_of_mem _ h1, h2,
        by rw [List.count_cons_of_ne hne]; exact h3⟩
    · rw [tallyGo, if_neg hx] at h
      rcases List.mem_cons.mp h with he | ht
      · subst he
        refine ⟨List.mem_cons_self _ _, hx, ?_⟩
        simp [List.count_cons_self, Nat.add_comm]
      · obtain ⟨h1, h2, h3⟩ := mem_tallyGo rest (x :: seen) p ht
        have hne : p.1 ≠ x := fun he => h2 (he ▸ List.mem_cons_self x seen)
        refine ⟨List.mem_cons_of_mem _ h1,
          fun hs => h2 (List.mem_cons_of_mem _ hs), ?_⟩
        rw [List.count_cons_of_ne hne]; exact h3

theorem tallyGo_mem_of_mem {α : Type} [DecidableEq α] :
    ∀ (l seen : List α) (x : α), x ∈ l → x ∉ seen →
      (x, l.count x) ∈ tallyGo seen l
  | [], _, _, hx, _ => absurd hx (List.not_mem_nil _)
  | y :: rest, seen, x, hx, hs => by
    by_cases hy : y ∈ seen
    · have hne : x ≠ y := fun he => hs (he ▸ hy)
      have hr : x ∈ rest := (List.mem_cons.mp hx).resolve_left hne
      rw [tallyGo, if_pos hy, List.count_cons_of_ne hne]
      exact tallyGo_mem_of_mem rest seen x hr hs
    · rw [tallyGo, if_neg hy]
      by_cases he : x = y
      · subst he
        rw [List.count_cons_self, Nat.add_comm]
        exact List.mem_cons_self _ _
      · have hr : x ∈ rest := (List.mem_cons.mp hx).resolve_left he
        have hs2 : x ∉ y :: seen := fun h =>
          (List.mem_cons.mp h).elim he hs
        rw [List.count_cons_of_ne he]
        exact List.mem_cons_of_mem _
          (tallyGo_mem_of_mem rest (y :: seen) x hr hs2)

theorem tallyGo_pairwise {α : Type} [DecidableEq α] :
    ∀ (l seen : List α),
      (tallyGo seen l).Pairwise (fun a b => l.indexOf a.1 < l.indexOf b.1)
  | [], _ => by simp [tallyGo]
  | x :: rest, seen => by
    by_cases hx : x ∈ seen
    · rw [tallyGo, if_pos hx]
      refine (tallyGo_pairwise rest seen).imp_of_mem ?_
      intro a b ha hb hlt
      have hna : a.1 ≠ x := fun he =>
        (mem_tallyGo rest seen a ha).2.1 (he ▸ hx)
      have hnb : b.1 ≠ x := fun he =>
        (mem_tallyGo rest seen b hb).2.1 (he ▸ hx)
      rw [List.indexOf_cons_ne rest (Ne.symm hna),
        List.indexOf_cons_ne rest (Ne.symm hnb)]
      exact Nat.succ_lt_succ hlt
    · rw [tallyGo, if_neg hx]
      refine List.Pairwise.cons ?_ ?_
      · intro b hb
        have hnb : b.1 ≠ x := fun he =>
          (mem_tallyGo rest (x :: seen) b hb).2.1
            (he ▸ List.mem_cons_self x seen)
        rw [List.indexOf_cons_self, List.indexOf_cons_ne rest (Ne.symm hnb)]
        exact Nat.succ_pos _
      · refine (tallyGo_pairwise rest (x :: seen)).imp_of_mem ?_
        intro a b ha hb hlt
        have hna : a.1 ≠ x := fun he =>
          (mem_tallyGo rest (x :: seen) a ha).2.1
            (he ▸ List.mem_cons_self x seen)
        have hnb : b.1 ≠ x := fun he =>
          (mem_tallyGo rest (x :: seen) b hb).2.1
            (he ▸ List.mem_cons_self x seen)
        rw [List.indexOf_cons_ne rest (Ne.symm hna),
          List.indexOf_cons_ne rest (Ne.symm hnb)]
        exact Nat.succ_lt_succ hlt

theorem mem_tally {α : Type} [DecidableEq α] {l : List α} {p : α × Nat}
    (h : p ∈ tally l) : p.1 ∈ l ∧ p.2 = l.count p.1 :=
  ⟨(mem_tallyGo l [] p h).1, (mem_tallyGo l [] p h).2.2⟩

theorem tally_mem_of_mem {α : Type} [DecidableEq α] {l : List α} {x : α}
    (h : x ∈ l) : (x, l.count x) ∈ tally l :=
  tallyGo_mem_of_mem l [] x h (List.not_mem_nil _)

theorem tally_pairwise {α : Type} [DecidableEq α] (l : List α) :
    (tally l).Pairwise (fun a b => l.indexOf a.1 < l.indexOf b.1) :=
  tallyGo_pairwise l []

/-- One step of the stable descending insertion sort on counts: `x` is
placed after exactly those earlier elements whose count is strictly
larger. -/
def insertDesc {α : Type} (x : α × Nat) : List (α × Nat) → List (α × Nat)
  | [] => [x]
  | y :: ys => if x.2 < y.2 then y :: insertDesc x ys else x :: y :: ys

/-- Stable sort of (key, count) pairs by descending count; models
`Counter.most_common()` (CPython: `sorted(items, key=count, reverse=True)`,
a stable sort over the insertion-ordered items). -/
def sortDesc {α : Type} : List (α × Nat) → List (α × Nat)
  | [] => []
  | x :: xs => insertDesc x (sortDesc xs)

theorem mem_insertDesc {α : Type} (x : α × Nat) :
    ∀ (l : List (α × Nat)) (p : α × Nat), p ∈ insertDesc x l ↔ p = x ∨ p ∈ l
  | [], p => by simp [insertDesc]
  | y :: ys, p => by
    rw [insertDesc]
    by_cases h : x.2 < y.2
    · rw [if_pos h]
      simp only [List.mem_cons, mem_insertDesc x ys p]
      tauto
    · rw [if_neg h]
      simp only [List.mem_cons]

theorem mem_sortDesc {α : Type} :
    ∀ (l : List (α × Nat)) (p : α × Nat), p ∈ sortDesc l ↔ p ∈ l
  | [], p => Iff.rfl
  | x :: xs, p => by
    rw [sortDesc, mem_insertDesc, mem_sortDesc xs p, List.mem_cons]

theorem insertDesc_ne_nil {α : Type} (x : α × Nat) :
    ∀ (l : List (α × Nat)), insertDesc x l ≠ []
  | [] => by simp [insertDesc]
  | y :: ys => by
    rw [insertDesc]
    by_cases h : x.2 < y.2
    · rw [if_pos h]; exact List.cons_ne_nil _ _
    · rw [if_neg h]; exact List.cons_ne_nil _ _

theorem sortDesc_ne_nil {α : Type} {l : List (α × Nat)} (h : l ≠ []) :
    sortDesc l ≠ [] := by
  cases l with
  | nil => exact absurd rfl h
  | cons x xs => exact insertDesc_ne_nil x (sortDesc xs)

/-- The ordering invariant of the stable descending sort: counts are
non-increasing and any tie keeps the pre-sort relation `R`. -/
def stableDescRel {α : Type} (R : α × Nat → α × Nat → Prop)
    (a b : α × Nat) : Prop :=
  b.2 ≤ a.2 ∧ (a.2 = b.2 → R a b)

theorem pairwise_insertDesc {α : Type} (R : α × Nat → α × Nat → Prop)
    (x : α × Nat) :
    ∀ (l : List (α × Nat)), l.Pairwise (stableDescRel R) →
      (∀ b ∈ l, R x b) → (insertDesc x l).Pairwise (stableDescRel R)
  | [], _, _ => List.pairwise_singleton _ _
  | y :: ys, hl, hx => by
    obtain ⟨hy, hys⟩ := List.pairwise_cons.mp hl
    rw [insertDesc]
    by_cases h : x.2 < y.2
    · rw [if_pos h]
      refine List.Pairwise.cons ?_ ?_
      · intro b hb
        rcases (mem_insertDesc x ys b).mp hb with he | hm
        · subst he
          exact ⟨Nat.le_of_lt h, fun he2 => absurd (he2 ▸ h) (lt_irrefl _)⟩
        · exact hy b hm
      · exact pairwise_insertDesc R x ys hys fun b hb =>
          hx b (List.mem_cons_of_mem _ hb)
    · rw [if_neg h]
      refine List.Pairwise.cons ?_ hl
      intro b hb
      rcases List.mem_cons.mp hb with he | hm
      · subst he
        exact ⟨Nat.le_of_not_lt h, fun _ => hx b (List.mem_cons_self _ _)⟩
      · refine ⟨Nat.le_trans (hy b hm).1 (Nat.le_of_not_lt h), ?_⟩
        exact fun _ => hx b (List.mem_cons_of_mem _ hm)

theorem pairwise_sortDesc {α : Type} (R : α × Nat → α × Nat → Prop) :
    ∀ (l : List (α × Nat)), l.Pairwise R →
      (sortDesc l).Pairwise (stableDescRel R)
  | [], _ => List.Pairwise.nil
  | x :: xs, hl => by
    obtain ⟨hx, hxs⟩ := List.pairwise_cons.mp hl
    exact pairwise_insertDesc R x (sortDesc xs) (pairwise_sortDesc R xs hxs)
      fun b hb => hx b ((mem_sortDesc xs b).mp hb)

/-- The subreddit of every item counted by
`PersonaBuilder._calculate_subreddit_activity`: posts first, then comments,
keeping only truthy (non-empty, present) subreddit strings. -/
def itemSubreddits (posts : List Post) (comments : List Comment) :
    List String :=
  ((posts.map fun p => p.subreddit.getD "") ++
    (comments.map fun c => c.subreddit.getD "")).filter
    (fun s => decide (s ≠ ""))

/-- `PersonaBuilder._calculate_subreddit_activity`:
`dict(Counter(...).most_common())`, i.e. the per-subreddit tallies sorted
stably by descending count. -/
def calculateSubredditActivity (posts : List Post) (comments : List Comment) :
    List (String × Nat) :=
  sortDesc (tally (itemSubreddits posts comments))

/-- `list.sort()` for the (duplicate-insensitive) Nat timestamps: insertion
sort, ascending. -/
def insertAsc (x : Nat) : List Nat → List Nat
  | [] => [x]
  | y :: ys => if y ≤ x then y :: insertAsc x ys else x :: y :: ys

/-- Ascending sort of the timestamp list (`timestamps.sort()`). -/
def sortAsc : List Nat → List Nat
  | [] => []
  | x :: xs => insertAsc x (sortAsc xs)

/-- `Counter(l).most_common(1)[0][0]`: the first key of the stable
descending sort of the insertion-ordered tallies. -/
def mostCommon1 {α : Type} [DecidableEq α] (l : List α) : Option α :=
  (sortDesc (tally l)).head?.map Prod.fst

/-- Hour of day of `datetime.fromtimestamp(ts)` under a fixed UTC offset
`off` (seconds). -/
def hourOf (off ts : Nat) : Nat := (ts + off) / 3600 % 24

/-- Python weekday (`Monday = 0 .. Sunday = 6`) of
`datetime.fromtimestamp(ts)` under a fixed UTC offset `off`; the epoch day
is a Thursday (index 3). -/
def weekdayOf (off ts : Nat) : Nat := ((ts + off) / 86400 + 3) % 7

/-- All `created_utc` values of posts then comments
(`get('created_utc', 0)`). -/
def rawTimestamps (posts : List Post) (comments : List Comment) : List Nat :=
  posts.map (fun p => p.created_utc) ++ comments.map (fun c => c.created_utc)

/-- `[ts for ts in timestamps if ts > 0]`. -/
def activeTimestamps (posts : List Post) (comments : List Comment) :
    List Nat :=
  (rawTimestamps posts comments).filter (fun t => decide (0 < t))

/-- The hour list derived from the sorted positive timestamps. -/
def hoursList (off : Nat) (posts : List Post) (comments : List Comment) :
    List Nat :=
  (sortAsc (activeTimestamps posts comments)).map (hourOf off)

/-- The weekday list derived from the sorted positive timestamps. -/
def daysList (off : Nat) (posts : List Post) (comments : List Comment) :
    List Nat :=
  (sortAsc (activeTimestamps posts comments)).map (weekdayOf off)

/-- The dictionary returned by `PersonaBuilder._calculate_posting_patterns`
on non-empty timestamp input. Python float arithmetic on these small epoch
values is modelled by exact rationals. -/
structure PostingPatterns where
  total_posts : Nat
  total_comments : Nat
  total_activity : Nat
  most_active_hour : Option Nat
  most_active_day : Option Nat
  activity_span_days : ℚ
  average_daily_activity : ℚ
deriving DecidableEq

/-- `PersonaBuilder._calculate_posting_patterns`; `none` models the empty
dictionary returned when no timestamp is positive. -/
def calculatePostingPatterns (off : Nat) (posts : List Post)
    (comments : List Comment) : Option PostingPatterns :=
  let ts := activeTimestamps posts comments
  if ts.isEmpty then none
  else
    let sorted := sortAsc ts
    let hours := hoursList off posts comments
    let days := daysList off posts comments
    let tmax : ℚ := (sorted.getLast?.getD 0 : Nat)
    let tmin : ℚ := (sorted.head?.getD 0 : Nat)
    some
      { total_posts := posts.length
        total_comments := comments.length
        total_activity := sorted.length
        most_active_hour := if hours.isEmpty then none else mostCommon1 hours
        most_active_day := if days.isEmpty then none else mostCommon1 days
        activity_span_days :=
          if 1 < sorted.length then (tmax - tmin) / 86400 else 0
        average_daily_activity :=
          if 1 < sorted.length then
            (sorted.length : ℚ) / max 1 ((tmax - tmin) / 86400)
          else 0 }

/-- Python `str.strip()`: the string with leading and trailing whitespace
removed. -/
def pyStrip (s : String) : String :=
  String.mk (((s.data.dropWhile Char.isWhitespace).reverse.dropWhile
    Char.isWhitespace).reverse)

/-- Python truthiness of an `Optional[str]` analysis outcome: `None` and the
empty string are falsy. -/
def truthy (o : Option String) : Bool := o.getD "" ≠ ""

/-- The failure sentinel substituted for falsy sections. -/
def failSentinel : String := "Analysis failed"

/-- The persona dictionary built by `PersonaBuilder.build_persona`
(the unmodelled passthrough fields `scraping_stats`, `user_info` and the
wall-clock `generation_timestamp` are omitted). -/
structure Persona where
  username : String
  demographics : String
  interests : String
  personality : String
  behavior : String
  subreddit_activity : List (String × Nat)
  posting_patterns : Option PostingPatterns
  citations : List (String × CitationEntry)
deriving DecidableEq

/-- `PersonaBuilder.build_persona`, parameterized by the four analysis
outcomes (the values `_make_api_call` would produce for each section) and
instrumented with the number of per-section analysis calls issued: the
second component is 0 when the function returns before dispatching the four
analyses, 4 otherwise. -/
def buildPersona (off : Nat) (username : String)
    (demographics interests personality behavior : Option String)
    (posts : List Post) (comments : List Comment) : Option Persona × Nat :=
  let prepared := prepareContent posts comments
  if pyStrip prepared.1 = "" then (none, 0)
  else if truthy demographics || truthy interests || truthy personality ||
      truthy behavior then
    (some
      { username := username
        demographics :=
          if truthy demographics then demographics.getD "" else failSentinel
        interests :=
          if truthy interests then interests.getD "" else failSentinel
        personality :=
          if truthy personality then personality.getD "" else failSentinel
        behavior :=
          if truthy behavior then behavior.getD "" else failSentinel
        subreddit_activity := calculateSubredditActivity posts comments
        posting_patterns := calculatePostingPatterns off posts comments
        citations := prepared.2 }, 4)
  else (none, 4)

theorem strTake_length (s : String) (n : Nat) :
    (strTake s n).length = min s.length n := by
  show (s.data.take n).length = min s.data.length n
  rw [List.length_take, Nat.min_comm]

/-- C4: with `max_retries = 3` and an inner call that fails on every
attempt, `_make_api_call` invokes the call exactly 3 times, sleeps
`2 ** attempt` seconds after failed attempts 0 and 1 (1s then 2s) and not
after the final one, and returns the failure value `None`; the wrapper's
result type has no exception channel, so no exception reaches the caller. -/
theorem retry_always_fails_three (call : Nat → Except String String)
    (h : ∀ k, ∃ e, call k = Except.error e) :
    makeApiCall 3 call = (none, 3, [1, 2]) := by
  obtain ⟨e0, h0⟩ := h 0
  obtain ⟨e1, h1⟩ := h 1
  obtain ⟨e2, h2⟩ := h 2
  simp [makeApiCall, retryGo, h0, h1, h2]

theorem retry_always_fails_three_witness :
    makeApiCall 3 (fun _ => Except.error "boom") = (none, 3, [1, 2]) :=
  retry_always_fails_three (fun _ => Except.error "boom")
    (fun _ => ⟨"boom", rfl⟩)

/-- C10: with `max_retries = 0` the attempt loop body never runs:
`_make_api_call` performs zero invocations of the call, sleeps never, and
returns the failure value `None` without raising. -/
theorem retry_zero_attempts (call : Nat → Except String String) :
    makeApiCall 0 call = (none, 0, []) := rfl

/-- C8: with zero posts and zero comments, content preparation yields the
empty corpus and `build_persona` returns no record with zero analysis
calls issued (the four LLM analyses are never dispatched). -/
theorem empty_input_pipeline (off : Nat) (username : String)
    (demographics interests personality behavior : Option String) :
    (prepareContent [] []).1 = "" ∧
    buildPersona off username demographics interests personality behavior
      [] [] = (none, 0) :=
  ⟨rfl, rfl⟩

/-- C2 counterexample: a post body of length 2 ≤ 500 is rendered with the
ellipsis marker appended ("Content: hi..."), not unchanged — the source
appends "..." unconditionally, so the claim's no-ellipsis case is false. -/
theorem truncation_claim_cex :
    (postFragment 0
      { id := none, title := some "t", selftext := some "hi",
        subreddit := some "a", score := 1, created_utc := 1,
        permalink := none })[2]? = some "Content: hi..." ∧
    "hi".length ≤ 500 ∧ "Content: hi..." ≠ "Content: hi" := by
  refine ⟨rfl, by decide, by decide⟩

/-- C2 (amended): for a retained body the rendered body is always the first
min(L, B) characters followed by the ellipsis marker, regardless of whether
L exceeds the budget (B = 500 for post bodies, B = 300 for comment bodies);
when L > B the kept part has length exactly B. -/
theorem body_truncation_always_ellipsis (i : Nat) (p : Post) (c : Comment)
    (s : String) (hs : p.selftext = some s) (hne : s ≠ "") :
    (postFragment i p)[2]? =
      some ("Content: " ++ strTake s 500 ++ "...") ∧
    (strTake s 500).length = min s.length 500 ∧
    (500 < s.length → (strTake s 500).length = 500) ∧
    (commentFragment i c)[2]? =
      some ("Comment: " ++ strTake (c.body.getD "") 300 ++ "...") ∧
    (strTake (c.body.getD "") 300).length =
      min (c.body.getD "").length 300 := by
  refine ⟨?_, strTake_length s 500, ?_, rfl, strTake_length _ 300⟩
  · rw [postFragment, hs]
    simp [hne]
  · intro hgt
    rw [strTake_length]
    exact Nat.min_eq_right (Nat.le_of_lt hgt)

def truncWPost : Post :=
  { id := none, title := some "t", selftext := some "ab",
    subreddit := some "a", score := 1, created_utc := 1, permalink := none }

def truncWComment : Comment :=
  { id := none, body := some "cd", subreddit := some "b", score := 2,
    created_utc := 1, submission_title := none, permalink := none }

theorem body_truncation_always_ellipsis_witness :
    (postFragment 0 truncWPost)[2]? =
      some ("Content: " ++ strTake "ab" 500 ++ "...") ∧
    (strTake "ab" 500).length = min "ab".length 500 ∧
    (500 < "ab".length → (strTake "ab" 500).length = 500) ∧
    (commentFragment 0 truncWComment)[2]? =
      some ("Comment: " ++
        strTake (truncWComment.body.getD "") 300 ++ "...") ∧
    (strTake (truncWComment.body.getD "") 300).length =
      min (truncWComment.body.getD "").length 300 :=
  body_truncation_always_ellipsis 0 truncWPost truncWComment "ab" rfl
    (by decide)

/-- C9 counterexample: a post with a body yields a 4-line fragment while a
post with a missing body yields a 3-line fragment — the `Content:` line is
omitted, not rendered as a placeholder, so post fragments are not
positionally stable. -/
theorem fragment_stability_cex :
    (postFragment 0
      { id := none, title := some "t", selftext := some "body",
        subreddit := some "a", score := 1, created_utc := 1,
        permalink := none }).length = 4 ∧
    (postFragment 0
      { id := none, title := some "t", selftext := none,
        subreddit := some "a", score := 1, created_utc := 1,
        permalink := none }).length = 3 ∧
    (3 : Nat) ≠ 4 := by
  refine ⟨rfl, rfl, by decide⟩

/-- C9 (amended): missing titles and missing parent-submission titles do
render as placeholder lines ("No title", "Unknown post"), and every comment
fragment has the fixed 4-line structure; but a post with a missing or empty
body omits the `Content:` line, so a post fragment has 3 lines in that case
and 4 otherwise. -/
theorem fragment_structure (i : Nat) (p : Post) (c : Comment) :
    (commentFragment i c).length = 4 ∧
    (p.title = none → (postFragment i p)[1]? = some "Title: No title") ∧
    (c.submission_title = none →
      (commentFragment i c)[1]? = some "In response to: Unknown post") ∧
    (p.selftext.getD "" = "" → (postFragment i p).length = 3) ∧
    (p.selftext.getD "" ≠ "" → (postFragment i p).length = 4) := by
  refine ⟨rfl, ?_, ?_, ?_, ?_⟩
  · intro h; rw [postFragment, h]
    simp
  · intro h; rw [commentFragment, h]
    simp
  · intro h; rw [postFragment, if_pos h]; rfl
  · intro h; rw [postFragment, if_neg h]; rfl

def shapeWPost : Post :=
  { id := none, title := none, selftext := none, subreddit := some "a",
    score := 1, created_utc := 1, permalink := none }

def shapeWComment : Comment :=
  { id := none, body := some "x", subreddit := some "b", score := 2,
    created_utc := 1, submission_title := none, permalink := none }

theorem fragment_structure_witness :
    (commentFragment 0 shapeWComment).length = 4 ∧
    (postFragment 0 shapeWPost)[1]? = some "Title: No title" ∧
    (commentFragment 0 shapeWComment)[1]? =
      some "In response to: Unknown post" ∧
    (postFragment 0 shapeWPost).length = 3 := by
  have h := fragment_structure 0 shapeWPost shapeWComment
  exact ⟨h.1, h.2.1 rfl, h.2.2.1 rfl, h.2.2.2.1 rfl⟩

/-- C3: for a non-blank corpus, `build_persona` returns no record exactly
when all four section results are failures — a failed section being one
whose call produced no usable text (`None` after an exception, or an empty
response, both falsy in the source's `any` check, matching the dispatcher's
"collaborator error, timeout, or empty response" failure notion) — and any
returned record carries each section's text when the section succeeded and
the literal sentinel "Analysis failed" when it failed. -/
theorem build_persona_failure_gating (off : Nat) (username : String)
    (demographics interests personality behavior : Option String)
    (posts : List Post) (comments : List Comment)
    (hc : pyStrip (prepareContent posts comments).1 ≠ "") :
    ((buildPersona off username demographics interests personality behavior
        posts comments).1 = none ↔
      (truthy demographics = false ∧ truthy interests = false ∧
        truthy personality = false ∧ truthy behavior = false)) ∧
    (∀ rec, (buildPersona off username demographics interests personality
        behavior posts comments).1 = some rec →
      rec.demographics =
        (if truthy demographics then demographics.getD ""
         else failSentinel) ∧
      rec.interests =
        (if truthy interests then interests.getD "" else failSentinel) ∧
      rec.personality =
        (if truthy personality then personality.getD "" else failSentinel) ∧
      rec.behavior =
        (if truthy behavior then behavior.getD "" else failSentinel)) := by
  rw [buildPersona, if_neg hc]
  by_cases hd : truthy demographics = true <;>
    by_cases hi : truthy interests = true <;>
      by_cases hp : truthy personality = true <;>
        by_cases hb : truthy behavior = true <;>
          simp [hd, hi, hp, hb]

def gateWPost : Post :=
  { id := none, title := some "t", selftext := none, subreddit := some "a",
    score := 1, created_utc := 1, permalink := none }

theorem build_persona_failure_gating_witness :
    ((buildPersona 0 "u" (some "ok") none none none [gateWPost] []).1 =
        none ↔
      (truthy (some "ok") = false ∧ truthy none = false ∧
        truthy none = false ∧ truthy none = false)) ∧
    (∀ rec,
      (buildPersona 0 "u" (some "ok") none none none [gateWPost] []).1 =
        some rec →
      rec.demographics =
        (if truthy (some "ok") then (some "ok").getD "" else failSentinel) ∧
      rec.interests =
        (if truthy none then (none : Option String).getD ""
         else failSentinel) ∧
      rec.personality =
        (if truthy none then (none : Option String).getD ""
         else failSentinel) ∧
      rec.behavior =
        (if truthy none then (none : Option String).getD ""
         else failSentinel)) :=
  build_persona_failure_gating 0 "u" (some "ok") none none none
    [gateWPost] [] (by decide)

/-- C5: subreddit activity counts one per retained item keyed by subreddit
(count = number of occurrences among the items' truthy subreddit names,
posts first then comments), skips items whose subreddit is missing or empty
(no "unknown" bucket appears), and the resulting association list is sorted
by strictly non-increasing count with equal counts ordered by first
occurrence. -/
theorem subreddit_activity_correct (posts : List Post)
    (comments : List Comment) :
    (∀ p, p ∈ calculateSubredditActivity posts comments →
      p.1 ≠ "" ∧ p.1 ∈ itemSubreddits posts comments ∧
      p.2 = (itemSubreddits posts comments).count p.1) ∧
    (∀ s, s ∈ itemSubreddits posts comments →
      (s, (itemSubreddits posts comments).count s) ∈
        calculateSubredditActivity posts comments) ∧
    (calculateSubredditActivity posts comments).Pairwise (fun a b =>
      b.2 ≤ a.2 ∧ (a.2 = b.2 →
        (itemSubreddits posts comments).indexOf a.1 <
          (itemSubreddits posts comments).indexOf b.1)) := by
  refine ⟨?_, ?_, ?_⟩
  · intro p hp
    have hm := (mem_sortDesc _ p).mp hp
    obtain ⟨h1, h2⟩ := mem_tally hm
    refine ⟨?_, h1, h2⟩
    have := List.of_mem_filter h1
    simpa using this
  · intro s hs
    exact (mem_sortDesc _ _).mpr (tally_mem_of_mem hs)
  · exact pairwise_sortDesc _ _ (tally_pairwise _)

def actWPostA : Post :=
  { id := none, title := none, selftext := none, subreddit := some "a",
    score := 1, created_utc := 1, permalink := none }

def actWPostB : Post :=
  { id := none, title := none, selftext := none, subreddit := some "a",
    score := 2, created_utc := 2, permalink := none }

def actWComment : Comment :=
  { id := none, body := some "x", subreddit := some "b", score := 3,
    created_utc := 3, submission_title := none, permalink := none }

theorem subreddit_activity_correct_witness :
    ("a", 2) ∈ calculateSubredditActivity [actWPostA, actWPostB]
      [actWComment] := by
  have h := (subreddit_activity_correct [actWPostA, actWPostB]
    [actWComment]).2.1 "a" (by decide)
  exact h

theorem postCitations_length : ∀ (i : Nat) (ps : List Post),
    (postCitations i ps).length = ps.length
  | _, [] => rfl
  | i, _ :: ps => by
    rw [postCitations, List.length_cons, List.length_cons,
      postCitations_length (i + 1) ps]

theorem commentCitations_length : ∀ (i : Nat) (cs : List Comment),
    (commentCitations i cs).length = cs.length
  | _, [] => rfl
  | i, _ :: cs => by
    rw [commentCitations, List.length_cons, List.length_cons,
      commentCitations_length (i + 1) cs]

theorem postCitations_getElem? : ∀ (i k : Nat) (ps : List Post),
    (postCitations i ps)[k]? =
      (ps[k]?).map fun p => (postToken (i + k), postEntry p)
  | _, _, [] => by simp [postCitations]
  | _, 0, _ :: _ => by simp [postCitations]
  | i, k + 1, _ :: ps => by
    rw [postCitations, List.getElem?_cons_succ, List.getElem?_cons_succ,
      postCitations_getElem? (i + 1) k ps]
    have h : i + 1 + k = i + (k + 1) := by omega
    rw [h]

theorem commentCitations_getElem? : ∀ (i k : Nat) (cs : List Comment),
    (commentCitations i cs)[k]? =
      (cs[k]?).map fun c => (commentToken (i + k), commentEntry c)
  | _, _, [] => by simp [commentCitations]
  | _, 0, _ :: _ => by simp [commentCitations]
  | i, k + 1, _ :: cs => by
    rw [commentCitations, List.getElem?_cons_succ, List.getElem?_cons_succ,
      commentCitations_getElem? (i + 1) k cs]
    have h : i + 1 + k = i + (k + 1) := by omega
    rw [h]

theorem postCitations_map_fst : ∀ (i : Nat) (ps : List Post),
    (postCitations i ps).map Prod.fst = (List.range' i ps.length).map postToken
  | _, [] => rfl
  | i, _ :: ps => by
    rw [postCitations, List.map_cons, List.length_cons, List.range'_succ,
      List.map_cons, postCitations_map_fst (i + 1) ps]

theorem commentCitations_map_fst : ∀ (i : Nat) (cs : List Comment),
    (commentCitations i cs).map Prod.fst =
      (List.range' i cs.length).map commentToken
  | _, [] => rfl
  | i, _ :: cs => by
    rw [commentCitations, List.map_cons, List.length_cons, List.range'_succ,
      List.map_cons, commentCitations_map_fst (i + 1) cs]

set_option maxRecDepth 40000 in
theorem tokens_nodup :
    ((List.range 50).map postToken ++
      (List.range 100).map commentToken).Nodup := by decide

/-- C1: the citation map has exactly min(len(posts), 50) +
min(len(comments), 100) entries: entry i (0-based) of the post section is
the token `POST_{i+1}` paired with the metadata of the i-th input post,
entry j of the comment section is `COMMENT_{j+1}` paired with the j-th
input comment's metadata (dense, 1-based, in input-list order), and all
tokens of a run are distinct. -/
theorem citation_map_correct (posts : List Post) (comments : List Comment) :
    ((prepareContent posts comments).2.length =
      min posts.length 50 + min comments.length 100) ∧
    (∀ i, i < min posts.length 50 →
      (prepareContent posts comments).2[i]? =
        (posts[i]?).map fun p => (postToken i, postEntry p)) ∧
    (∀ j, j < min comments.length 100 →
      (prepareContent posts comments).2[min posts.length 50 + j]? =
        (comments[j]?).map fun c => (commentToken j, commentEntry c)) ∧
    ((prepareContent posts comments).2.map Prod.fst).Nodup := by
  have hpl : (posts.take 50).length = min posts.length 50 := by
    rw [List.length_take, Nat.min_comm]
  have hcl : (comments.take 100).length = min comments.length 100 := by
    rw [List.length_take, Nat.min_comm]
  refine ⟨?_, ?_, ?_, ?_⟩
  · show (postCitations 0 (posts.take 50) ++
      commentCitations 0 (comments.take 100)).length = _
    rw [List.length_append, postCitations_length, commentCitations_length,
      hpl, hcl]
  · intro i hi
    show (postCitations 0 (posts.take 50) ++
      commentCitations 0 (comments.take 100))[i]? = _
    rw [List.getElem?_append,
      if_pos (by rw [postCitations_length, hpl]; exact hi),
      postCitations_getElem?, List.getElem?_take,
      if_pos (Nat.lt_of_lt_of_le hi (Nat.min_le_right _ _)), Nat.zero_add]
  · intro j hj
    show (postCitations 0 (posts.take 50) ++
      commentCitations 0 (comments.take 100))[min posts.length 50 + j]? = _
    rw [List.getElem?_append,
      if_neg (by
        rw [postCitations_length, hpl]
        exact Nat.not_lt.mpr (Nat.le_add_right _ _)),
      postCitations_length, hpl, Nat.add_sub_cancel_left,
      commentCitations_getElem?, List.getElem?_take,
      if_pos (Nat.lt_of_lt_of_le hj (Nat.min_le_right _ _)), Nat.zero_add]
  · show ((postCitations 0 (posts.take 50) ++
      commentCitations 0 (comments.take 100)).map Prod.fst).Nodup
    rw [List.map_append, postCitations_map_fst, commentCitations_map_fst,
      ← List.range_eq_range', ← List.range_eq_range']
    refine List.Nodup.sublist ?_ tokens_nodup
    refine List.Sublist.append ?_ ?_
    · exact (List.range_sublist.mpr
        (by rw [hpl]; exact Nat.min_le_right _ _)).map _
    · exact (List.range_sublist.mpr
        (by rw [hcl]; exact Nat.min_le_right _ _)).map _

def citWPost : Post :=
  { id := some "p1", title := some "t", selftext := none,
    subreddit := some "a", score := 1, created_utc := 1, permalink := none }

def citWComment : Comment :=
  { id := some "c1", body := some "x", subreddit := some "b", score := 2,
    created_utc := 2, submission_title := none, permalink := none }

theorem citation_map_correct_witness :
    (prepareContent [citWPost] [citWComment]).2[(0 : Nat)]? =
      some (postToken 0, postEntry citWPost) ∧
    (prepareContent [citWPost] [citWComment]).2[(1 : Nat)]? =
      some (commentToken 0, commentEntry citWComment) := by
  have h := citation_map_correct [citWPost] [citWComment]
  exact ⟨by simpa using h.2.1 0 (by decide),
    by simpa using h.2.2.1 0 (by decide)⟩

/-- C7: with no positive timestamp the posting-pattern computation returns
the empty dictionary (`none`), and with exactly one positive timestamp it
returns a record whose activity span and average daily activity are 0 —
the guards make both the empty and the single-timestamp case total, with
no division by zero. -/
theorem posting_patterns_degenerate (off : Nat) (posts : List Post)
    (comments : List Comment) :
    (activeTimestamps posts comments = [] →
      calculatePostingPatterns off posts comments = none) ∧
    (∀ t : Nat, activeTimestamps posts comments = [t] →
      ∃ pat, calculatePostingPatterns off posts comments = some pat ∧
        pat.activity_span_days = 0 ∧ pat.average_daily_activity = 0 ∧
        pat.total_activity = 1) := by
  constructor
  · intro h
    rw [calculatePostingPatterns]
    rw [if_pos (by simp [h])]
  · intro t h
    rw [calculatePostingPatterns]
    rw [if_neg (by simp [h])]
    refine ⟨_, rfl, ?_, ?_, ?_⟩ <;> simp [h, sortAsc, insertAsc]

def patWZero : Post :=
  { id := none, title := none, selftext := none, subreddit := some "a",
    score := 1, created_utc := 0, permalink := none }

def patWOne : Post :=
  { id := none, title := none, selftext := none, subreddit := some "a",
    score := 1, created_utc := 5, permalink := none }

theorem posting_patterns_degenerate_witness :
    calculatePostingPatterns 0 [patWZero] [] = none ∧
    ∃ pat, calculatePostingPatterns 0 [patWOne] [] = some pat ∧
      pat.activity_span_days = 0 ∧ pat.average_daily_activity = 0 ∧
      pat.total_activity = 1 :=
  ⟨(posting_patterns_degenerate 0 [patWZero] []).1 (by decide),
    (posting_patterns_degenerate 0 [patWOne] []).2 5 (by decide)⟩

def tiePostA : Post :=
  { id := none, title := none, selftext := none, subreddit := some "a",
    score := 1, created_utc := 18000, permalink := none }

def tiePostB : Post :=
  { id := none, title := none, selftext := none, subreddit := some "a",
    score := 1, created_utc := 97200, permalink := none }

/-- C6 counterexample: timestamps 18000 and 97200 (UTC) give the hour list
[5, 3]; both hours occur exactly once, yet the computation selects hour 5
(the first encountered in ascending-timestamp order), not the smaller
value 3 — `Counter.most_common` breaks ties by insertion order, not by
numeric value, so the claim's tie rule is false. -/
theorem most_active_hour_tie_cex :
    (calculatePostingPatterns 0 [tiePostA, tiePostB] []).map
      (fun pat => pat.most_active_hour) = some (some 5) ∧
    hoursList 0 [tiePostA, tiePostB] [] = [5, 3] ∧
    (hoursList 0 [tiePostA, tiePostB] []).count 3 =
      (hoursList 0 [tiePostA, tiePostB] []).count 5 ∧
    (3 : Nat) < 5 :=
  ⟨rfl, rfl, rfl, by decide⟩

theorem insertAsc_ne_nil (x : Nat) : ∀ (l : List Nat), insertAsc x l ≠ []
  | [] => by simp [insertAsc]
  | y :: ys => by
    rw [insertAsc]
    by_cases h : y ≤ x
    · rw [if_pos h]; exact List.cons_ne_nil _ _
    · rw [if_neg h]; exact List.cons_ne_nil _ _

theorem sortAsc_ne_nil {l : List Nat} (h : l ≠ []) : sortAsc l ≠ [] := by
  cases l with
  | nil => exact absurd rfl h
  | cons x xs => exact insertAsc_ne_nil x (sortAsc xs)

/-- `Counter(l).most_common(1)[0][0]` on a non-empty list returns a value
of maximal frequency whose first occurrence is earliest among the
maximal-frequency values. -/
theorem mostCommon1_spec {α : Type} [DecidableEq α] (l : List α)
    (hl : l ≠ []) :
    ∃ x, mostCommon1 l = some x ∧ x ∈ l ∧
      (∀ y, l.count y ≤ l.count x) ∧
      (∀ y, y ∈ l → l.count y = l.count x →
        l.indexOf x ≤ l.indexOf y) := by
  have ht : tally l ≠ [] := by
    cases l with
    | nil => exact absurd rfl hl
    | cons a l2 =>
      rw [tally, tallyGo, if_neg (List.not_mem_nil a)]
      exact List.cons_ne_nil _ _
  obtain ⟨h0, t, heq⟩ := List.exists_cons_of_ne_nil (sortDesc_ne_nil ht)
  have hPW : (sortDesc (tally l)).Pairwise
      (stableDescRel fun a b => l.indexOf a.1 < l.indexOf b.1) :=
    pairwise_sortDesc _ _ (tally_pairwise l)
  rw [heq] at hPW
  obtain ⟨hHead, _⟩ := List.pairwise_cons.mp hPW
  have hmem : h0 ∈ tally l :=
    (mem_sortDesc _ _).mp (heq ▸ List.mem_cons_self h0 t)
  obtain ⟨hx, hcnt⟩ := mem_tally hmem
  refine ⟨h0.1, by rw [mostCommon1, heq]; rfl, hx, ?_, ?_⟩
  · intro y
    by_cases hy : y ∈ l
    · have hyt : (y, l.count y) ∈ h0 :: t := by
        rw [← heq]
        exact (mem_sortDesc _ _).mpr (tally_mem_of_mem hy)
      rcases List.mem_cons.mp hyt with he | hm
      · rw [← hcnt]
        exact Nat.le_of_eq (congrArg Prod.snd he)
      · rw [← hcnt]
        exact (hHead _ hm).1
    · rw [List.count_eq_zero_of_not_mem hy]
      exact Nat.zero_le _
  · intro y hy hcy
    have hyt : (y, l.count y) ∈ h0 :: t := by
      rw [← heq]
      exact (mem_sortDesc _ _).mpr (tally_mem_of_mem hy)
    rcases List.mem_cons.mp hyt with he | hm
    · have hy1 : y = h0.1 := congrArg Prod.fst he
      rw [hy1]
    · have htie := (hHead _ hm).2 (by rw [hcnt]; exact hcy.symm)
      exact Nat.le_of_lt htie

/-- C6 (amended): the most-active hour and weekday are chosen with maximal
frequency, but a tie is resolved to the value whose first occurrence in
the ascending-timestamp-ordered hour/weekday list comes earliest
(`Counter` insertion order), not to the smaller numeric value; the result
is still deterministic. -/
theorem most_active_tie_first_occurrence (off : Nat) (posts : List Post)
    (comments : List Comment)
    (h : activeTimestamps posts comments ≠ []) :
    (∃ hr, (calculatePostingPatterns off posts comments).map
        (fun pat => pat.most_active_hour) = some (some hr) ∧
      hr ∈ hoursList off posts comments ∧
      (∀ y, (hoursList off posts comments).count y ≤
        (hoursList off posts comments).count hr) ∧
      (∀ y, y ∈ hoursList off posts comments →
        (hoursList off posts comments).count y =
          (hoursList off posts comments).count hr →
        (hoursList off posts comments).indexOf hr ≤
          (hoursList off posts comments).indexOf y)) ∧
    (∃ d, (calculatePostingPatterns off posts comments).map
        (fun pat => pat.most_active_day) = some (some d) ∧
      d ∈ daysList off posts comments ∧
      (∀ y, (daysList off posts comments).count y ≤
        (daysList off posts comments).count d) ∧
      (∀ y, y ∈ daysList off posts comments →
        (daysList off posts comments).count y =
          (daysList off posts comments).count d →
        (daysList off posts comments).indexOf d ≤
          (daysList off posts comments).indexOf y)) := by
  have hso : sortAsc (activeTimestamps posts comments) ≠ [] :=
    sortAsc_ne_nil h
  have hH : hoursList off posts comments ≠ [] := by
    rw [hoursList]
    exact fun he => hso (List.map_eq_nil_iff.mp he)
  have hD : daysList off posts comments ≠ [] := by
    rw [daysList]
    exact fun he => hso (List.map_eq_nil_iff.mp he)
  obtain ⟨hr, hmc, hmem, hmax, htie⟩ :=
    mostCommon1_spec (hoursList off posts comments) hH
  obtain ⟨d, dmc, dmem, dmax, dtie⟩ :=
    mostCommon1_spec (daysList off posts comments) hD
  have hne : ¬ (activeTimestamps posts comments).isEmpty = true := by
    simpa [List.isEmpty_iff] using h
  simp only [calculatePostingPatterns]
  rw [if_neg hne,
    if_neg (show ¬ (hoursList off posts comments).isEmpty = true by
      simpa [List.isEmpty_iff] using hH),
    if_neg (show ¬ (daysList off posts comments).isEmpty = true by
      simpa [List.isEmpty_iff] using hD)]
  constructor
  · exact ⟨hr, congrArg some hmc, hmem, hmax, htie⟩
  · exact ⟨d, congrArg some dmc, dmem, dmax, dtie⟩

theorem most_active_tie_first_occurrence_witness :
    ∃ hr, (calculatePostingPatterns 0 [tiePostA] []).map
        (fun pat => pat.most_active_hour) = some (some hr) ∧
      hr ∈ hoursList 0 [tiePostA] [] ∧
      (∀ y, (hoursList 0 [tiePostA] []).count y ≤
        (hoursList 0 [tiePostA] []).count hr) ∧
      (∀ y, y ∈ hoursList 0 [tiePostA] [] →
        (hoursList 0 [tiePostA] []).count y =
          (hoursList 0 [tiePostA] []).count hr →
        (hoursList 0 [tiePostA] []).indexOf hr ≤
          (hoursList 0 [tiePostA] []).indexOf y) :=
  (most_active_tie_first_occurrence 0 [tiePostA] [] (by decide)).1
